import Mathlib

/-!
Verification of the WordPress-to-Contentful migration toolkit.

This file gives a shallow embedding of the two core subsystems:
  * `lib/rich-text-transformer.js` — the HTML-to-Rich-Text transformer
    (the HTML node tree it walks is modelled by `HNode`, the produced
    Contentful Rich Text tree by `RNode`);
  * `scripts/04-migrate-content.js` — the per-entity skip/commit loop of
    the migration orchestrator (`migrateOne` / `migrateFamily`).

JavaScript-specific behaviour that the source relies on (string truthiness,
`parseInt`, object-key coercion of numbers to decimal strings, first-match
regex scans) is embedded by small explicitly-named helpers (`jsTruthy`,
`parseIntJS`, `lookupJS`, `insertJS`, ...).
-/

/-! ## JavaScript string/number helpers -/

/-- First-match lookup among an attribute/property list, as
`node.getAttribute(name)` / JS object indexing return the stored value or
`undefined`. -/
def getAttribute (attrs : List (String × String)) (name : String) : Option String :=
  match attrs with
  | [] => none
  | (k, v) :: rest => if k = name then some v else getAttribute rest name

/-- `node.getAttribute(name) || ''` — missing attribute degrades to the empty
string. -/
def jsAttr (attrs : List (String × String)) (name : String) : String :=
  (getAttribute attrs name).getD ""

/-- JS truthiness of a string-or-undefined value: `undefined` and `''` are
falsy, any other string is truthy. -/
def jsTruthy : Option String → Bool
  | none => false
  | some s => !(s = "")

/-- JS truthiness of a number-or-null value (`null`, `NaN` — both modelled as
`none` — and `0` are falsy). -/
def jsIntTruthy : Option Int → Bool
  | none => false
  | some n => !(n = 0)

/-- JS object property read `obj[k]` on a string-keyed map (first binding
wins; `insertJS` keeps keys unique). -/
def lookupJS : List (String × String) → String → Option String
  | [], _ => none
  | (k', v) :: rest, k => if k' = k then some v else lookupJS rest k

/-- JS object property assignment `obj[k] = v`: overwrites an existing key in
place, otherwise appends. -/
def insertJS : List (String × String) → String → String → List (String × String)
  | [], k, v => [(k, v)]
  | (k', v') :: rest, k, v =>
    if k' = k then (k, v) :: rest else (k', v') :: insertJS rest k v

/-- Lower-casing of an ASCII character, as `String.prototype.toLowerCase`
acts on the tag names appearing here. -/
def lowerChar (c : Char) : Char :=
  if 'A' ≤ c ∧ c ≤ 'Z' then Char.ofNat (c.toNat + 32) else c

/-- `tagName.toLowerCase()`. -/
def lowerStr (s : String) : String :=
  String.mk (s.data.map lowerChar)

/-- `String.prototype.trim`. -/
def jsTrim (s : String) : String :=
  String.mk (((s.data.dropWhile Char.isWhitespace).reverse.dropWhile Char.isWhitespace).reverse)

/-- `String.prototype.substring(0, n)`. -/
def jsSubstring (s : String) (n : Nat) : String :=
  String.mk (s.data.take n)

/-- Numeric value of a decimal digit run. -/
def digitsToNat (ds : List Char) : Nat :=
  ds.foldl (fun a c => a * 10 + (c.toNat - 48)) 0

/-- Value of a hexadecimal digit, `none` for a non-digit. -/
def hexVal (c : Char) : Option Nat :=
  if c.isDigit then some (c.toNat - 48)
  else if 'a' ≤ c ∧ c ≤ 'f' then some (c.toNat - 87)
  else if 'A' ≤ c ∧ c ≤ 'F' then some (c.toNat - 55)
  else none

/-- Numeric value of a hexadecimal digit run. -/
def hexDigitsToNat (ds : List Char) : Nat :=
  ds.foldl (fun a c => a * 16 + ((hexVal c).getD 0)) 0

/-- JS `parseInt(s)` (radix auto-detect): skip leading whitespace, optional
sign, `0x` prefix selects base 16, parse the longest digit run, `NaN`
(modelled `none`) when no digit follows. -/
def parseIntJS (s : String) : Option Int :=
  let cs := s.data.dropWhile Char.isWhitespace
  let signAndRest : Int × List Char :=
    match cs with
    | '-' :: rest => (-1, rest)
    | '+' :: rest => (1, rest)
    | _ => (1, cs)
  let sign := signAndRest.1
  match signAndRest.2 with
  | '0' :: x :: rest =>
    if x = 'x' ∨ x = 'X' then
      let ds := rest.takeWhile (fun c => (hexVal c).isSome)
      if ds = [] then none else some (sign * (hexDigitsToNat ds : Nat))
    else
      let ds := ('0' :: x :: rest).takeWhile Char.isDigit
      some (sign * (digitsToNat ds : Nat))
  | other =>
    let ds := other.takeWhile Char.isDigit
    if ds = [] then none else some (sign * (digitsToNat ds : Nat))

/-! ## Regex scans used by the transformer

Each models a first-match JS regex search: the scan advances one character at
a time and at each position tries to match the pattern there. -/

/-- `url.match(/[?&]p=(\d+)/)` — first `?p=` or `&p=` followed by a digit run. -/
def scanPid : List Char → Option Nat
  | [] => none
  | c :: rest =>
    if c = '?' ∨ c = '&' then
      match rest with
      | 'p' :: '=' :: rest2 =>
        let ds := rest2.takeWhile Char.isDigit
        if ds = [] then scanPid rest else some (digitsToNat ds)
      | _ => scanPid rest
    else scanPid rest

/-- `classAttr.match(/wp-image-(\d+)/)` — first `wp-image-` followed by a
digit run. -/
def scanWpImage : List Char → Option Nat
  | [] => none
  | c :: rest =>
    if List.isPrefixOf ("wp-image-".data) (c :: rest) then
      let ds := ((c :: rest).drop 9).takeWhile Char.isDigit
      if ds = [] then scanWpImage rest else some (digitsToNat ds)
    else scanWpImage rest

/-- `src.match(/\/(\d+)\//)` — first `/` followed by a digit run followed by
another `/`. -/
def scanSlashNum : List Char → Option Nat
  | [] => none
  | '/' :: rest =>
    let ds := rest.takeWhile Char.isDigit
    if ds ≠ [] then
      match rest.drop ds.length with
      | '/' :: _ => some (digitsToNat ds)
      | _ => scanSlashNum rest
    else scanSlashNum rest
  | _ :: rest => scanSlashNum rest

/-- `extractWpPostIdFromUrl` (rich-text-transformer.js:621-630): empty /
missing URL gives `null`; otherwise the `?p=123` query-parameter form is the
only recognised convention. -/
def extractWpPostIdFromUrl (url : String) : Option Nat :=
  if url = "" then none
  else scanPid url.data

/-! ## Node models

`HNode` models the parsed HTML tree handed to the transformer by
`node-html-parser` (`nodeType` 3 = text, 8 = comment, 1 = element with a tag
name, attributes, and `childNodes`).

`RNode` models the Contentful Rich Text structure the transformer builds:
text runs carry `value` and `marks` (a mark `{type: m}` is modelled by the
string `m`; `data` of a text run is always `{}`), every other node carries
`nodeType`, a `data` payload, and a `content` array. -/

inductive HNode where
  | text (s : String)
  | comment (s : String)
  | elem (tag : String) (attrs : List (String × String)) (children : List HNode)
deriving Repr

/-- The `data` payload of a produced node: `{}`, `{uri}`, or a
`{target: {sys: {type: 'Link', linkType, id}}}` link to an asset or entry. -/
inductive RData where
  | empty
  | uri (u : String)
  | assetLink (id : String)
  | entryLink (id : String)
deriving Repr, DecidableEq

inductive RNode where
  | text (value : String) (marks : List String)
  | node (nodeType : String) (data : RData) (content : List RNode)
deriving Repr

/-- `nodeType` of a produced node (a text run reports `'text'`). -/
def RNode.nodeTypeOf : RNode → String
  | .text _ _ => "text"
  | .node t _ _ => t

/-- The `content` array of a produced node (text runs have none). -/
def RNode.contentOf : RNode → List RNode
  | .text _ _ => []
  | .node _ _ c => c

/-- The attribute list of an element (text/comment nodes have none). -/
def HNode.attrsOf : HNode → List (String × String)
  | .elem _ attrs _ => attrs
  | _ => []

/-- The `childNodes` of an element (text/comment nodes have none). -/
def HNode.childrenOf : HNode → List HNode
  | .elem _ _ children => children
  | _ => []

/-- `querySelector(tag)` — first matching descendant element, document
order. -/
def findFirstTag (tag : String) : List HNode → Option HNode
  | [] => none
  | .elem t a ch :: rest =>
    if lowerStr t = tag then some (.elem t a ch)
    else
      match findFirstTag tag ch with
      | some r => some r
      | none => findFirstTag tag rest
  | _ :: rest => findFirstTag tag rest

/-- `querySelectorAll` over a set of tag names — all matching descendant
elements, document order. -/
def findAllTags (tags : List String) : List HNode → List HNode
  | [] => []
  | .elem t a ch :: rest =>
    (if (lowerStr t) ∈ tags then [HNode.elem t a ch] else [])
      ++ findAllTags tags ch ++ findAllTags tags rest
  | _ :: rest => findAllTags tags rest

mutual
/-- `node.textContent` — concatenated text of all text descendants. -/
def textContent : HNode → String
  | .text s => s
  | .comment _ => ""
  | .elem _ _ ch => textContentList ch

def textContentList : List HNode → String
  | [] => ""
  | n :: rest => textContent n ++ textContentList rest
end

/-- Is this node a direct `<ul>`/`<ol>` element (the transformer's
`:scope > ul, :scope > ol` selector predicate)? -/
def isListTag (n : HNode) : Bool :=
  match n with
  | .elem tag _ _ => lowerStr tag = "ul" ∨ lowerStr tag = "ol"
  | _ => false

/-- The transformer object: the two identity maps given to the constructor
plus the `preserveWhitespace` option (default `false`; `stripShortcodes`
only affects the pre-parse string rewriting, which happens before the node
tree this embedding starts from). -/
structure Transformer where
  assetMap : List (String × String)
  entryMap : List (String × String)
  preserveWhitespace : Bool := false
deriving Repr, DecidableEq

/-- `getMarkType` (rich-text-transformer.js:576-589). -/
def getMarkType (tag : String) : Option String :=
  if tag = "strong" then some "bold"
  else if tag = "b" then some "bold"
  else if tag = "em" then some "italic"
  else if tag = "i" then some "italic"
  else if tag = "u" then some "underline"
  else if tag = "code" then some "code"
  else if tag = "mark" then some "bold"
  else if tag = "sub" then some "subscript"
  else if tag = "sup" then some "superscript"
  else none

/-- `createTextNode` (rich-text-transformer.js:635-642). -/
def createTextNode (text : String) : RNode :=
  .text text []

/-- `emptyParagraph` (rich-text-transformer.js:658-664). -/
def emptyParagraph : RNode :=
  .node "paragraph" .empty [createTextNode ""]

/-- `emptyDocument` (rich-text-transformer.js:647-653). -/
def emptyDocument : RNode :=
  .node "document" .empty [emptyParagraph]

/-- `tableToText` (rich-text-transformer.js:594-616), applied to the table's
`childNodes`: rows are the descendant `tr`s, cells the descendant
`td`/`th`s of each row; cell texts joined by `' | '`, rows by newline. -/
def tableToText (children : List HNode) : RNode :=
  let rows := findAllTags ["tr"] children
  let textRows := rows.map (fun row =>
    let cells := findAllTags ["td", "th"] row.childrenOf
    String.intercalate " | " (cells.map (fun cell => jsTrim (textContent cell))))
  .node "paragraph" .empty [.text (String.intercalate "\n" textRows) []]

/-- The three-strategy WordPress media-id search of `createEmbeddedAsset`
(rich-text-transformer.js:396-423): `data-id` attribute, `wp-image-{id}`
class pattern, then a `/{digits}/` URL path segment; a strategy's result is
kept only when truthy (`parseInt` giving `NaN` or `0` falls through, as the
source's `if (!wpId)` re-tries). -/
def embeddedWpId (attrs : List (String × String)) : Option Int :=
  let dataId := getAttribute attrs "data-id"
  let wpId1 : Option Int :=
    match dataId with
    | some s => if s = "" then none else parseIntJS s
    | none => none
  let wpId2 : Option Int :=
    if jsIntTruthy wpId1 then wpId1
    else
      match scanWpImage (jsAttr attrs "class").data with
      | some n => some (n : Int)
      | none => wpId1
  if jsIntTruthy wpId2 then wpId2
  else
    match scanSlashNum (jsAttr attrs "src").data with
    | some n => some (n : Int)
    | none => wpId2

/-- `createEmbeddedAsset` (rich-text-transformer.js:396-458), given the
`<img>` element's attributes. Returns the produced node and the warnings
pushed. The asset-map read `this.assetMap[wpId]` coerces the numeric id to
its decimal string; both the id (`wpId ? ... : null`) and the looked-up
value (`if (!contentfulAssetId)`) are used under JS truthiness. -/
def createEmbeddedAsset (t : Transformer) (attrs : List (String × String)) :
    RNode × List String :=
  let src := jsAttr attrs "src"
  let wpId := embeddedWpId attrs
  let contentfulAssetId : Option String :=
    match wpId with
    | some n => if n = 0 then none else lookupJS t.assetMap (toString n)
    | none => none
  if jsTruthy contentfulAssetId then
    (.node "embedded-asset-block" (.assetLink (contentfulAssetId.getD "")) [], [])
  else
    let alt := jsAttr attrs "alt"
    (.node "paragraph" .empty
      [.text ("[Image: " ++ (if alt = "" then src else alt) ++ "]") ["italic"]],
      ["Asset not found for image: " ++ jsSubstring src 100])

/-- Direct `<ul>`/`<ol>` children of a list item
(`child.querySelectorAll(':scope > ul, :scope > ol')`). -/
def directLists (ch : List HNode) : List HNode :=
  ch.filter isListTag

/-- Any element found by `findFirstTag` is a strict subtree of the searched
forest, so its size is strictly smaller. -/
theorem findFirstTag_sizeOf_lt (tag : String) :
    ∀ (ns : List HNode) (r : HNode), findFirstTag tag ns = some r → sizeOf r < sizeOf ns
  | [], r, h => by simp [findFirstTag] at h
  | .text s :: rest, r, h => by
    simp only [findFirstTag] at h
    have := findFirstTag_sizeOf_lt tag rest r h
    simp only [List.cons.sizeOf_spec]
    omega
  | .comment s :: rest, r, h => by
    simp only [findFirstTag] at h
    have := findFirstTag_sizeOf_lt tag rest r h
    simp only [List.cons.sizeOf_spec]
    omega
  | .elem t a ch :: rest, r, h => by
    simp only [findFirstTag] at h
    by_cases hif : lowerStr t = tag
    · rw [if_pos hif] at h
      injection h with h'
      subst h'
      simp only [List.cons.sizeOf_spec]
      omega
    · rw [if_neg hif] at h
      cases hch : findFirstTag tag ch with
      | some r' =>
        rw [hch] at h
        injection h with h'
        subst h'
        have := findFirstTag_sizeOf_lt tag ch r' hch
        simp only [List.cons.sizeOf_spec, HNode.elem.sizeOf_spec]
        omega
      | none =>
        rw [hch] at h
        have := findFirstTag_sizeOf_lt tag rest r h
        simp only [List.cons.sizeOf_spec]
        omega
termination_by ns => sizeOf ns

/-- A node's `childNodes` are no larger than the node itself. -/
theorem childrenOf_sizeOf_le (n : HNode) : sizeOf n.childrenOf <= sizeOf n := by
  cases n with
  | text s =>
    simp only [HNode.childrenOf, HNode.text.sizeOf_spec, List.nil.sizeOf_spec]
    omega
  | comment s =>
    simp only [HNode.childrenOf, HNode.comment.sizeOf_spec, List.nil.sizeOf_spec]
    omega
  | elem t a ch =>
    simp only [HNode.childrenOf, HNode.elem.sizeOf_spec]
    omega

mutual
def processNodes (t : Transformer) (nodes : List HNode) : List RNode × List String :=
  match nodes with
  | [] => ([], [])
  | n :: rest =>
    let hd := processNode t n
    let tl := processNodes t rest
    (hd.1 ++ tl.1, hd.2 ++ tl.2)
termination_by (sizeOf nodes, 0)

/-- `processNode` (rich-text-transformer.js:132-242). A `null` return is
modelled by `[]`, a single node by a one-element list, an array result by
the list itself (callers flatten exactly as `processNodes` does). -/
def processNode (t : Transformer) (node : HNode) : List RNode × List String :=
  match node with
  | .text s =>
    if jsTrim s = "" ∧ t.preserveWhitespace = false then ([], [])
    else ([createTextNode s], [])
  | .comment _ => ([], [])
  | .elem tag attrs children =>
    let tg := lowerStr tag
    if tg = "p" then
      let r := createParagraph t children
      (r.1.toList, r.2)
    else if tg = "h1" ∨ tg = "h2" then
      let r := createHeading t 2 children
      (r.1.toList, r.2)
    else if tg = "h3" then
      let r := createHeading t 3 children
      (r.1.toList, r.2)
    else if tg = "h4" ∨ tg = "h5" ∨ tg = "h6" then
      let r := createHeading t 4 children
      (r.1.toList, r.2)
    else if tg = "ul" then
      let r := createList t "unordered-list" children
      (r.1.toList, r.2)
    else if tg = "ol" then
      let r := createList t "ordered-list" children
      (r.1.toList, r.2)
    else if tg = "blockquote" then
      let r := createBlockquote t children
      ([r.1], r.2)
    else if tg = "pre" then
      let r := createParagraph t children
      (r.1.toList, r.2)
    else if tg = "hr" then ([.node "hr" .empty []], [])
    else if tg = "table" then
      ([tableToText children], ["Table converted to text (not supported in Rich Text)"])
    else if tg = "img" then
      let r := createEmbeddedAsset t attrs
      ([r.1], r.2)
    else if tg = "figure" then processFigure t children
    else if tg = "video" ∨ tg = "audio" then
      ([], [tg ++ " element skipped (not directly supported)"])
    else if tg = "iframe" then ([], ["iframe skipped (embed content manually)"])
    else if tg = "a" then
      let r := createHyperlink t attrs children
      ([r.1], r.2)
    else if tg = "div" ∨ tg = "section" ∨ tg = "article" ∨ tg = "main" ∨
            tg = "aside" ∨ tg = "header" ∨ tg = "footer" ∨ tg = "span" then
      processNodes t children
    else if tg = "br" then ([createTextNode "\n"], [])
    else if tg = "strong" ∨ tg = "b" ∨ tg = "em" ∨ tg = "i" ∨ tg = "u" ∨
            tg = "code" ∨ tg = "mark" ∨ tg = "sub" ∨ tg = "sup" then
      wrapWithMark t (getMarkType tg) children
    else processNodes t children
termination_by (sizeOf node, 0)

/-- The per-child loop of `processInlineContent`
(rich-text-transformer.js:505-542), prior to the final empty-fallback. -/
def inlineLoop (t : Transformer) (excl : Bool) (cs : List HNode) :
    List RNode × List String :=
  match cs with
  | [] => ([], [])
  | c :: rest =>
    let hd : List RNode × List String :=
      if excl = true ∧ isListTag c = true then ([], [])
      else
        match c with
        | .text s => if s = "" then ([], []) else ([createTextNode s], [])
        | .comment _ => ([], [])
        | .elem tag attrs ch =>
          let tg := lowerStr tag
          if tg = "strong" ∨ tg = "b" ∨ tg = "em" ∨ tg = "i" ∨ tg = "u" ∨
             tg = "code" ∨ tg = "mark" then
            wrapWithMark t (getMarkType tg) ch
          else if tg = "a" then
            let r := createHyperlink t attrs ch
            ([r.1], r.2)
          else if tg = "br" then ([createTextNode "\n"], [])
          else if tg = "img" then ([], [])
          else processInlineContent t excl ch
    let tl := inlineLoop t excl rest
    (hd.1 ++ tl.1, hd.2 ++ tl.2)
termination_by (sizeOf cs, 0)

/-- `processInlineContent` (rich-text-transformer.js:502-550), applied to a
node's `childNodes`: run the child loop, then substitute a single empty text
run if nothing was produced. -/
def processInlineContent (t : Transformer) (excl : Bool) (cs : List HNode) :
    List RNode × List String :=
  let r := inlineLoop t excl cs
  if r.1.length = 0 then ([createTextNode ""], r.2) else r
termination_by (sizeOf cs, 1)

/-- `wrapWithMark` (rich-text-transformer.js:555-571), applied to the
element's `childNodes`: add the mark to every produced text run, pass every
other item through unchanged. -/
def wrapWithMark (t : Transformer) (markType : Option String) (cs : List HNode) :
    List RNode × List String :=
  match markType with
  | none => processInlineContent t false cs
  | some mk =>
    let r := processInlineContent t false cs
    (r.1.map (fun item =>
      match item with
      | .text v ms => .text v (ms ++ [mk])
      | other => other), r.2)
termination_by (sizeOf cs, 2)

/-- `createParagraph` (rich-text-transformer.js:247-260), applied to the
element's `childNodes`; `none` models the `null` return for an empty (or
single-empty-text) paragraph. -/
def createParagraph (t : Transformer) (cs : List HNode) :
    Option RNode × List String :=
  let r := processInlineContent t false cs
  let content := r.1
  let firstIsEmptyText : Bool :=
    match content with
    | .text v _ :: _ => v = ""
    | _ => false
  if content.length = 0 ∨ (content.length = 1 ∧ firstIsEmptyText = true) then
    (none, r.2)
  else (some (.node "paragraph" .empty content), r.2)

/-- `createHeading` (rich-text-transformer.js:265-277). -/
def createHeading (t : Transformer) (level : Nat) (cs : List HNode) :
    Option RNode × List String :=
  let r := processInlineContent t false cs
  if r.1.length = 0 then (none, r.2)
  else (some (.node ("heading-" ++ toString level) .empty r.1), r.2)

/-- `createList` (rich-text-transformer.js:282-344), applied to the
`<ul>`/`<ol>` element's `childNodes`; `none` models the `null` return for a
list with no items. -/
def createList (t : Transformer) (listType : String) (cs : List HNode) :
    Option RNode × List String :=
  let r := listItems t cs
  if r.1.length = 0 then (none, r.2)
  else (some (.node listType .empty r.1), r.2)
termination_by (sizeOf cs, 2)

/-- The per-child loop of `createList` (rich-text-transformer.js:285-333):
only `<li>` children produce items; an item with directly-nested lists gets
its non-list inline content as a leading paragraph followed by the recursed
nested lists, a simple item gets its inline content as a single paragraph;
items producing no content are omitted. -/
def listItems (t : Transformer) (cs : List HNode) : List RNode × List String :=
  match cs with
  | [] => ([], [])
  | c :: rest =>
    let hd : List RNode × List String :=
      match c with
      | .elem tag _ ch =>
        if lowerStr tag = "li" then
          let itemContent : List RNode × List String :=
            if (directLists ch).length > 0 then
              let inl := processInlineContent t true ch
              let lead : List RNode :=
                if inl.1.length > 0 then [.node "paragraph" .empty inl.1] else []
              let nested := buildNestedLists t ch
              (lead ++ nested.1, inl.2 ++ nested.2)
            else
              let inl := processInlineContent t false ch
              (if inl.1.length > 0 then [.node "paragraph" .empty inl.1] else [], inl.2)
          (if itemContent.1.length > 0 then
            [.node "list-item" .empty itemContent.1]
          else [], itemContent.2)
        else ([], [])
      | _ => ([], [])
    let tl := listItems t rest
    (hd.1 ++ tl.1, hd.2 ++ tl.2)
termination_by (sizeOf cs, 0)

/-- The nested-list loop of `createList` (rich-text-transformer.js:304-312):
each direct `<ul>`/`<ol>` child of the item recurses with the matching list
type; `null` results are dropped. -/
def buildNestedLists (t : Transformer) (cs : List HNode) : List RNode × List String :=
  match cs with
  | [] => ([], [])
  | .elem tag _ ch :: rest =>
    if lowerStr tag = "ul" ∨ lowerStr tag = "ol" then
      let nestedType := if lowerStr tag = "ul" then "unordered-list" else "ordered-list"
      let r := createList t nestedType ch
      let tl := buildNestedLists t rest
      (r.1.toList ++ tl.1, r.2 ++ tl.2)
    else buildNestedLists t rest
  | _ :: rest => buildNestedLists t rest
termination_by (sizeOf cs, 0)

/-- `createBlockquote` (rich-text-transformer.js:349-364), applied to the
element's `childNodes`: process children as blocks; if nothing was produced
substitute one paragraph made of the blockquote's own inline content; then
keep only paragraph-type blocks. The filter runs after the emptiness check,
exactly as in the source. -/
def createBlockquote (t : Transformer) (cs : List HNode) : RNode × List String :=
  let blocks := processNodes t cs
  let content : List RNode × List String :=
    if blocks.1.length > 0 then (blocks.1, [])
    else
      let inl := processInlineContent t false cs
      ([.node "paragraph" .empty inl.1], inl.2)
  (.node "blockquote" .empty
      (content.1.filter (fun b => b.nodeTypeOf = "paragraph")),
    blocks.2 ++ content.2)
termination_by (sizeOf cs, 3)

/-- The inline-content computation of `createHyperlink`
(rich-text-transformer.js:464-469): the anchor's processed inline children,
with a fallback text run of the URL (or `'link'`) when the array is empty. -/
def hyperlinkContent (t : Transformer) (href : String) (cs : List HNode) :
    List RNode × List String :=
  let r := processInlineContent t false cs
  (if r.1.length = 0 then r.1 ++ [createTextNode (if href = "" then "link" else href)]
   else r.1, r.2)
termination_by (sizeOf cs, 2)

/-- `createHyperlink` (rich-text-transformer.js:463-497), applied to the
anchor's attributes and `childNodes`: resolve a `?p=` post id through the
entry map (under JS truthiness: id `0` and an empty-string map value do not
resolve) into an entry hyperlink, else an external hyperlink carrying the
href verbatim. -/
def createHyperlink (t : Transformer) (attrs : List (String × String))
    (cs : List HNode) : RNode × List String :=
  let href := jsAttr attrs "href"
  let content := hyperlinkContent t href cs
  let wpPostId := extractWpPostIdFromUrl href
  let contentfulEntryId : Option String :=
    match wpPostId with
    | some n => if n = 0 then none else lookupJS t.entryMap ("post_" ++ toString n)
    | none => none
  if jsTruthy contentfulEntryId then
    (.node "entry-hyperlink" (.entryLink (contentfulEntryId.getD "")) content.1, content.2)
  else
    (.node "hyperlink" (.uri href) content.1, content.2)
termination_by (sizeOf cs, 3)

/-- `processFigure` (rich-text-transformer.js:369-391), applied to the
figure's `childNodes`: the first descendant `<img>` yields its embedded
asset (or fallback), the first descendant `<figcaption>` yields a caption
paragraph, in that order. -/
def processFigure (t : Transformer) (cs : List HNode) : List RNode × List String :=
  let assetPart : List RNode × List String :=
    match findFirstTag "img" cs with
    | some img => let r := createEmbeddedAsset t img.attrsOf; ([r.1], r.2)
    | none => ([], [])
  let capPart : List RNode × List String :=
    match findFirstTag "figcaption" cs with
    | some fc =>
      let r := createParagraph t fc.childrenOf
      (r.1.toList, r.2)
    | none => ([], [])
  (assetPart.1 ++ capPart.1, assetPart.2 ++ capPart.2)

end

/-- `transform` (rich-text-transformer.js:31-70), from the point where the
HTML has been parsed into a node forest: process the nodes and wrap them in
a `document`, substituting one empty paragraph when nothing was produced.
The pre-parse string rewrites (shortcode stripping, Gutenberg comment
removal) and the third-party `node-html-parser` call operate before this
point; a `null`/non-string/empty input yields the empty forest, for which
this definition returns the canonical `emptyDocument`, exactly as the
source's early-return does. -/
def transform (t : Transformer) (nodes : List HNode) : RNode × List String :=
  let r := processNodes t nodes
  (RNode.node "document" .empty (if r.1.length > 0 then r.1 else [emptyParagraph]), r.2)

/-! ## The migration orchestrator (scripts/04-migrate-content.js)

Each entity family (authors, categories, tags, posts, pages) runs the same
per-entity loop: compute the map key `prefix + id`, skip when the entry map
already holds a truthy value for it, otherwise attempt the destination
write (`createEntry` + `publish`, together with building the fields and
transforming the body — any raised error lands in the `catch`), and on
success commit the new mapping and count `migrated`, on failure count
`failed` and continue. The destination-write collaborator is abstracted as
an oracle `write : Nat → Option String` (`none` models a raised error,
`some destId` the created entry's `sys.id`); `writes` records every entity
for which a destination write was attempted. -/

@[ext]
structure MigStats where
  total : Nat
  migrated : Nat
  skipped : Nat
  failed : Nat
deriving Repr, DecidableEq

@[ext]
structure MigState where
  stats : MigStats
  entryMap : List (String × String)
  writes : List Nat
deriving Repr, DecidableEq

/-- One entity of the family loop (04-migrate-content.js:234-321 for posts;
111-137, 152-182, 194-219, 346-408 are the same skip/commit pattern for the
other families). -/
def migrateOne (pfx : String) (write : Nat → Option String)
    (s : MigState) (e : Nat) : MigState :=
  let mapKey := pfx ++ toString e
  if jsTruthy (lookupJS s.entryMap mapKey) then
    ⟨⟨s.stats.total, s.stats.migrated, s.stats.skipped + 1, s.stats.failed⟩,
      s.entryMap, s.writes⟩
  else
    match write e with
    | some destId =>
      ⟨⟨s.stats.total, s.stats.migrated + 1, s.stats.skipped, s.stats.failed⟩,
        insertJS s.entryMap mapKey destId, s.writes ++ [e]⟩
    | none =>
      ⟨⟨s.stats.total, s.stats.migrated, s.stats.skipped, s.stats.failed + 1⟩,
        s.entryMap, s.writes ++ [e]⟩

/-- The family loop over a list of source-entity ids (the posts loop groups
ids into batches, but processes them strictly sequentially; batching only
controls when the map is flushed to disk and the inter-batch delay). -/
def runEntities (pfx : String) (write : Nat → Option String)
    (es : List Nat) (s : MigState) : MigState :=
  es.foldl (migrateOne pfx write) s

/-- One family migration: stats start at zero with `total` set to the
collection's length (e.g. `stats.posts.total = posts.length`), the entry map
starts from the loaded `entry-map.json`. -/
def migrateFamily (pfx : String) (write : Nat → Option String)
    (es : List Nat) (m0 : List (String × String)) : MigState :=
  runEntities pfx write es ⟨⟨es.length, 0, 0, 0⟩, m0, []⟩

/-! ### Orchestrator lemmas -/

theorem lookupJS_insertJS_ne (m : List (String × String)) (k k' v : String)
    (h : ¬ k' = k) : lookupJS (insertJS m k' v) k = lookupJS m k := by
  induction m with
  | nil => simp [insertJS, lookupJS, h]
  | cons p rest ih =>
    obtain ⟨a, b⟩ := p
    by_cases ha : a = k'
    · subst ha
      simp [insertJS, lookupJS, h]
    · simp only [insertJS, if_neg ha]
      by_cases hak : a = k
      · simp [lookupJS, hak]
      · simp [lookupJS, hak, ih]

theorem runEntities_all_present (pfx : String) (write : Nat → Option String)
    (es : List Nat) :
    ∀ (s : MigState),
      (∀ e ∈ es, jsTruthy (lookupJS s.entryMap (pfx ++ toString e)) = true) →
      runEntities pfx write es s =
        ⟨⟨s.stats.total, s.stats.migrated, s.stats.skipped + es.length, s.stats.failed⟩,
          s.entryMap, s.writes⟩ := by
  induction es with
  | nil => intro s _; simp [runEntities]
  | cons e rest ih =>
    intro s hfull
    have he : jsTruthy (lookupJS s.entryMap (pfx ++ toString e)) = true :=
      hfull e (by simp)
    have hrest : ∀ x ∈ rest, jsTruthy (lookupJS s.entryMap (pfx ++ toString x)) = true :=
      fun x hx => hfull x (by simp [hx])
    show runEntities pfx write rest (migrateOne pfx write s e) = _
    rw [migrateOne]
    simp only [he, if_pos]
    rw [ih ⟨⟨s.stats.total, s.stats.migrated, s.stats.skipped + 1, s.stats.failed⟩,
          s.entryMap, s.writes⟩ (by simpa using hrest)]
    simp [List.length_cons]
    omega

theorem runEntities_preserves_mapping (pfx : String) (write : Nat → Option String)
    (es : List Nat) :
    ∀ (s : MigState) (k : String), jsTruthy (lookupJS s.entryMap k) = true →
      lookupJS (runEntities pfx write es s).entryMap k = lookupJS s.entryMap k := by
  induction es with
  | nil => intro s k _; simp [runEntities]
  | cons e rest ih =>
    intro s k hk
    show lookupJS (runEntities pfx write rest (migrateOne pfx write s e)).entryMap k = _
    by_cases hskip : jsTruthy (lookupJS s.entryMap (pfx ++ toString e)) = true
    · rw [migrateOne]
      simp only [hskip, if_pos]
      exact ih _ k hk
    · rw [migrateOne]
      simp only [hskip]
      rw [if_neg (by simp)]
      cases hw : write e with
      | some destId =>
        have hne : ¬ (pfx ++ toString e) = k := by
          intro hkk
          rw [hkk] at hskip
          exact hskip hk
        have hmap : lookupJS (insertJS s.entryMap (pfx ++ toString e) destId) k
            = lookupJS s.entryMap k := lookupJS_insertJS_ne _ _ _ _ hne
        rw [ih _ k (by simpa [hmap] using hk)]
        simpa using hmap
      | none =>
        exact ih _ k hk

theorem migrateOne_skip (pfx : String) (write : Nat → Option String)
    (s : MigState) (e : Nat)
    (h : jsTruthy (lookupJS s.entryMap (pfx ++ toString e)) = true) :
    migrateOne pfx write s e =
      ⟨⟨s.stats.total, s.stats.migrated, s.stats.skipped + 1, s.stats.failed⟩,
        s.entryMap, s.writes⟩ := by
  simp [migrateOne, h]

theorem migrateOne_success (pfx : String) (write : Nat → Option String)
    (s : MigState) (e : Nat) (d : String)
    (h : jsTruthy (lookupJS s.entryMap (pfx ++ toString e)) = false)
    (hw : write e = some d) :
    migrateOne pfx write s e =
      ⟨⟨s.stats.total, s.stats.migrated + 1, s.stats.skipped, s.stats.failed⟩,
        insertJS s.entryMap (pfx ++ toString e) d, s.writes ++ [e]⟩ := by
  simp [migrateOne, h, hw]

theorem migrateOne_fail (pfx : String) (write : Nat → Option String)
    (s : MigState) (e : Nat)
    (h : jsTruthy (lookupJS s.entryMap (pfx ++ toString e)) = false)
    (hw : write e = none) :
    migrateOne pfx write s e =
      ⟨⟨s.stats.total, s.stats.migrated, s.stats.skipped, s.stats.failed + 1⟩,
        s.entryMap, s.writes ++ [e]⟩ := by
  simp [migrateOne, h, hw]

theorem runEntities_frame (pfx : String) (write : Nat → Option String)
    (es : List Nat) :
    ∀ (s1 s2 : MigState), s1.entryMap = s2.entryMap →
      (runEntities pfx write es s1).entryMap = (runEntities pfx write es s2).entryMap ∧
      (runEntities pfx write es s1).stats.migrated + s2.stats.migrated
        = (runEntities pfx write es s2).stats.migrated + s1.stats.migrated ∧
      (runEntities pfx write es s1).stats.skipped + s2.stats.skipped
        = (runEntities pfx write es s2).stats.skipped + s1.stats.skipped ∧
      (runEntities pfx write es s1).stats.failed + s2.stats.failed
        = (runEntities pfx write es s2).stats.failed + s1.stats.failed := by
  induction es with
  | nil =>
    intro s1 s2 hmap
    exact ⟨hmap, Nat.add_comm _ _, Nat.add_comm _ _, Nat.add_comm _ _⟩
  | cons e rest ih =>
    intro s1 s2 hmap
    have hstep : ∀ (s : MigState), runEntities pfx write (e :: rest) s
        = runEntities pfx write rest (migrateOne pfx write s e) := fun s => rfl
    rw [hstep, hstep]
    have hkey : jsTruthy (lookupJS s2.entryMap (pfx ++ toString e))
        = jsTruthy (lookupJS s1.entryMap (pfx ++ toString e)) := by rw [hmap]
    by_cases hskip : jsTruthy (lookupJS s1.entryMap (pfx ++ toString e)) = true
    · rw [migrateOne_skip pfx write s1 e hskip,
          migrateOne_skip pfx write s2 e (by rw [hkey]; exact hskip)]
      obtain ⟨h1, h2, h3, h4⟩ := ih
        ⟨⟨s1.stats.total, s1.stats.migrated, s1.stats.skipped + 1, s1.stats.failed⟩,
          s1.entryMap, s1.writes⟩
        ⟨⟨s2.stats.total, s2.stats.migrated, s2.stats.skipped + 1, s2.stats.failed⟩,
          s2.entryMap, s2.writes⟩ hmap
      simp only at h1 h2 h3 h4
      exact ⟨h1, by omega, by omega, by omega⟩
    · rw [Bool.not_eq_true] at hskip
      cases hw : write e with
      | some destId =>
        rw [migrateOne_success pfx write s1 e destId hskip hw,
            migrateOne_success pfx write s2 e destId (by rw [hkey]; exact hskip) hw]
        obtain ⟨h1, h2, h3, h4⟩ := ih
          ⟨⟨s1.stats.total, s1.stats.migrated + 1, s1.stats.skipped, s1.stats.failed⟩,
            insertJS s1.entryMap (pfx ++ toString e) destId, s1.writes ++ [e]⟩
          ⟨⟨s2.stats.total, s2.stats.migrated + 1, s2.stats.skipped, s2.stats.failed⟩,
            insertJS s2.entryMap (pfx ++ toString e) destId, s2.writes ++ [e]⟩
          (by simp only; rw [hmap])
        simp only at h1 h2 h3 h4
        exact ⟨h1, by omega, by omega, by omega⟩
      | none =>
        rw [migrateOne_fail pfx write s1 e hskip hw,
            migrateOne_fail pfx write s2 e (by rw [hkey]; exact hskip) hw]
        obtain ⟨h1, h2, h3, h4⟩ := ih
          ⟨⟨s1.stats.total, s1.stats.migrated, s1.stats.skipped, s1.stats.failed + 1⟩,
            s1.entryMap, s1.writes ++ [e]⟩
          ⟨⟨s2.stats.total, s2.stats.migrated, s2.stats.skipped, s2.stats.failed + 1⟩,
            s2.entryMap, s2.writes ++ [e]⟩ hmap
        simp only at h1 h2 h3 h4
        exact ⟨h1, by omega, by omega, by omega⟩

/-! ## Claim theorems -/

/-- A transformer with empty identity maps and default options, as
`new RichTextTransformer(assetMap, entryMap)` starts before any mapping is
known. -/
def emptyMapsTransformer : Transformer :=
  { assetMap := [], entryMap := [] }

/-- C1: the claimed document-validity invariant — every block node has
non-empty `content` unless its type is intrinsically childless
(horizontal-rule, embedded-asset), and no inline content array is empty —
fails on the code. For the parse tree of `<blockquote>hello</blockquote>`
the bare text child survives the recursive pass, `createBlockquote`'s
non-empty check passes, and the subsequent paragraph-only filter then
removes it, so the emitted blockquote block has `content = []`. -/
theorem C1_blockquote_empty_content_breaks_document_validity :
    transform emptyMapsTransformer [.elem "blockquote" [] [.text "hello"]]
      = (.node "document" .empty [.node "blockquote" .empty []], []) := by
  simp [transform, processNodes, processNode, createBlockquote, processInlineContent,
        inlineLoop, createTextNode, jsTrim, lowerStr, lowerChar, RNode.nodeTypeOf,
        emptyMapsTransformer]

/-- C2: the claim that `createBlockquote` substitutes a paragraph whenever
the paragraph-only filtering leaves zero blocks — so a blockquote's content
is never empty — fails on the code: the substitution is decided before the
filter runs. For `<blockquote><ul><li>a</li></ul></blockquote>` the
recursion produces one (non-paragraph) list block, the fallback is
therefore skipped, and the filter then empties the content. -/
theorem C2_blockquote_filter_after_fallback_emits_empty_quote :
    transform emptyMapsTransformer
      [.elem "blockquote" [] [.elem "ul" [] [.elem "li" [] [.text "a"]]]]
      = (.node "document" .empty [.node "blockquote" .empty []], []) := by
  simp [transform, processNodes, processNode, createBlockquote, processInlineContent,
        inlineLoop, createTextNode, jsTrim, lowerStr, lowerChar, RNode.nodeTypeOf,
        emptyMapsTransformer, createList, listItems, directLists, isListTag,
        buildNestedLists]

/-- C3: an entity whose map key is already (truthily) present in the entry
map at the moment it is processed is counted as skipped with no destination
write and no map change; a run over a fully-populated map migrates nothing,
skips everything, writes nothing, and leaves the map unchanged; and no
truthy mapping is ever changed during any run. -/
theorem C3_identity_map_skip_idempotence
    (pfx : String) (write : Nat → Option String) (es : List Nat)
    (m0 : List (String × String))
    (hfull : ∀ e ∈ es, jsTruthy (lookupJS m0 (pfx ++ toString e)) = true) :
    ((migrateFamily pfx write es m0).stats.migrated = 0
      ∧ (migrateFamily pfx write es m0).stats.skipped
          = (migrateFamily pfx write es m0).stats.total
      ∧ (migrateFamily pfx write es m0).stats.failed = 0
      ∧ (migrateFamily pfx write es m0).entryMap = m0
      ∧ (migrateFamily pfx write es m0).writes = [])
    ∧ (∀ (s : MigState) (e : Nat),
        jsTruthy (lookupJS s.entryMap (pfx ++ toString e)) = true →
        migrateOne pfx write s e
          = ⟨⟨s.stats.total, s.stats.migrated, s.stats.skipped + 1, s.stats.failed⟩,
              s.entryMap, s.writes⟩)
    ∧ (∀ (es' : List Nat) (s : MigState) (k : String),
        jsTruthy (lookupJS s.entryMap k) = true →
        lookupJS (runEntities pfx write es' s).entryMap k = lookupJS s.entryMap k) := by
  refine ⟨?_, migrateOne_skip pfx write, runEntities_preserves_mapping pfx write⟩
  have h := runEntities_all_present pfx write es
    ⟨⟨es.length, 0, 0, 0⟩, m0, []⟩ (by simpa using hfull)
  rw [migrateFamily, h]
  exact ⟨rfl, by simp, rfl, rfl, rfl⟩

theorem C3_identity_map_skip_idempotence_witness :
    (∀ e ∈ [1, 2], jsTruthy
      (lookupJS [("post_1", "A"), ("post_2", "B")] ("post_" ++ toString e)) = true)
    ∧ (migrateFamily "post_" (fun _ => some "NEW") [1, 2]
        [("post_1", "A"), ("post_2", "B")]).stats.migrated = 0
    ∧ (migrateFamily "post_" (fun _ => some "NEW") [1, 2]
        [("post_1", "A"), ("post_2", "B")]).stats.skipped
      = (migrateFamily "post_" (fun _ => some "NEW") [1, 2]
        [("post_1", "A"), ("post_2", "B")]).stats.total
    ∧ (migrateFamily "post_" (fun _ => some "NEW") [1, 2]
        [("post_1", "A"), ("post_2", "B")]).entryMap = [("post_1", "A"), ("post_2", "B")]
    ∧ (migrateFamily "post_" (fun _ => some "NEW") [1, 2]
        [("post_1", "A"), ("post_2", "B")]).writes = []
    ∧ migrateOne "post_" (fun _ => some "NEW")
        ⟨⟨2, 0, 0, 0⟩, [("post_1", "A"), ("post_2", "B")], []⟩ 1
      = ⟨⟨2, 0, 1, 0⟩, [("post_1", "A"), ("post_2", "B")], []⟩
    ∧ lookupJS (runEntities "post_" (fun _ => some "NEW") [7]
        ⟨⟨2, 0, 0, 0⟩, [("post_1", "A"), ("post_2", "B")], []⟩).entryMap "post_1"
      = lookupJS [("post_1", "A"), ("post_2", "B")] "post_1" := by
  have h := C3_identity_map_skip_idempotence "post_" (fun _ => some "NEW") [1, 2]
    [("post_1", "A"), ("post_2", "B")] (by decide)
  exact ⟨by decide, h.1.1, h.1.2.1, h.1.2.2.2.1, h.1.2.2.2.2,
    h.2.1 _ 1 (by decide), h.2.2 [7] _ "post_1" (by decide)⟩

/-- C4: when the destination write for one entity raises (the attempt is
recorded, `none` is returned), the orchestrator counts one more `failed`,
adds no mapping for that entity, and the remaining entities produce exactly
the statistics and entry map they would produce were the failing entity
absent from the collection. -/
theorem C4_entity_failure_isolated
    (pfx : String) (write : Nat → Option String) (pre post : List Nat) (e : Nat)
    (s0 : MigState)
    (hfail : write e = none)
    (hnotpresent : jsTruthy (lookupJS (runEntities pfx write pre s0).entryMap
        (pfx ++ toString e)) = false) :
    (runEntities pfx write (pre ++ e :: post) s0).entryMap
        = (runEntities pfx write (pre ++ post) s0).entryMap
    ∧ (runEntities pfx write (pre ++ e :: post) s0).stats.migrated
        = (runEntities pfx write (pre ++ post) s0).stats.migrated
    ∧ (runEntities pfx write (pre ++ e :: post) s0).stats.skipped
        = (runEntities pfx write (pre ++ post) s0).stats.skipped
    ∧ (runEntities pfx write (pre ++ e :: post) s0).stats.failed
        = (runEntities pfx write (pre ++ post) s0).stats.failed + 1 := by
  have hsplit1 : runEntities pfx write (pre ++ e :: post) s0
      = runEntities pfx write post
          (migrateOne pfx write (runEntities pfx write pre s0) e) := by
    simp [runEntities, List.foldl_append]
  have hsplit2 : runEntities pfx write (pre ++ post) s0
      = runEntities pfx write post (runEntities pfx write pre s0) := by
    simp [runEntities, List.foldl_append]
  rw [hsplit1, hsplit2,
    migrateOne_fail pfx write (runEntities pfx write pre s0) e hnotpresent hfail]
  obtain ⟨h1, h2, h3, h4⟩ := runEntities_frame pfx write post
    ⟨⟨(runEntities pfx write pre s0).stats.total,
      (runEntities pfx write pre s0).stats.migrated,
      (runEntities pfx write pre s0).stats.skipped,
      (runEntities pfx write pre s0).stats.failed + 1⟩,
      (runEntities pfx write pre s0).entryMap,
      (runEntities pfx write pre s0).writes ++ [e]⟩
    (runEntities pfx write pre s0) rfl
  simp only at h1 h2 h3 h4
  exact ⟨h1, by omega, by omega, by omega⟩

theorem C4_entity_failure_isolated_witness :
    ((fun i => if i = 2 then none else some "D") 2 = (none : Option String))
    ∧ jsTruthy (lookupJS (runEntities "post_" (fun i => if i = 2 then none else some "D")
        [1] ⟨⟨3, 0, 0, 0⟩, [], []⟩).entryMap ("post_" ++ toString 2)) = false
    ∧ (runEntities "post_" (fun i => if i = 2 then none else some "D")
        ([1] ++ 2 :: [3]) ⟨⟨3, 0, 0, 0⟩, [], []⟩).entryMap
      = (runEntities "post_" (fun i => if i = 2 then none else some "D")
        ([1] ++ [3]) ⟨⟨3, 0, 0, 0⟩, [], []⟩).entryMap
    ∧ (runEntities "post_" (fun i => if i = 2 then none else some "D")
        ([1] ++ 2 :: [3]) ⟨⟨3, 0, 0, 0⟩, [], []⟩).stats.migrated
      = (runEntities "post_" (fun i => if i = 2 then none else some "D")
        ([1] ++ [3]) ⟨⟨3, 0, 0, 0⟩, [], []⟩).stats.migrated
    ∧ (runEntities "post_" (fun i => if i = 2 then none else some "D")
        ([1] ++ 2 :: [3]) ⟨⟨3, 0, 0, 0⟩, [], []⟩).stats.failed
      = (runEntities "post_" (fun i => if i = 2 then none else some "D")
        ([1] ++ [3]) ⟨⟨3, 0, 0, 0⟩, [], []⟩).stats.failed + 1 := by
  have h := C4_entity_failure_isolated "post_" (fun i => if i = 2 then none else some "D")
    [1] [3] 2 ⟨⟨3, 0, 0, 0⟩, [], []⟩ (by decide) (by decide)
  exact ⟨by decide, by decide, h.1, h.2.1, h.2.2.2⟩

/-- C9: the transformer does not wrap top-level inline content in a block:
bare text, a `<br>`, and an anchor at the top level of the parsed forest
each land directly in the document's `content` as inline nodes (a text run,
a newline text run, a hyperlink node) — not inside any block node. -/
theorem C9_top_level_inline_nodes :
    transform emptyMapsTransformer [.text "hi"]
      = (.node "document" .empty [.text "hi" []], [])
    ∧ transform emptyMapsTransformer [.elem "br" [] []]
      = (.node "document" .empty [.text "\n" []], [])
    ∧ transform emptyMapsTransformer [.elem "a" [("href", "u")] [.text "x"]]
      = (.node "document" .empty [.node "hyperlink" (.uri "u") [.text "x" []]], []) := by
  refine ⟨?_, ?_, ?_⟩
  · simp [transform, processNodes, processNode, createTextNode, jsTrim,
      emptyMapsTransformer]
  · simp [transform, processNodes, processNode, createTextNode, jsTrim, lowerStr,
      lowerChar, emptyMapsTransformer]
  · simp [transform, processNodes, processNode, createHyperlink, hyperlinkContent,
      processInlineContent, inlineLoop, createTextNode, jsAttr, getAttribute,
      extractWpPostIdFromUrl, scanPid, jsTruthy, lookupJS, jsTrim, lowerStr,
      lowerChar, emptyMapsTransformer]

/-- C5 counterexample: the anchor `<a href="https://site/?p=0">x</a>` has a
query-parameter post id (`N = 0`) and the entry map does contain a mapping
for `(post, 0)`, yet the code emits an external hyperlink: the source's
`wpPostId ? this.entryMap[...] : null` treats the extracted id `0` as falsy
and never consults the map. -/
theorem C5_p0_anchor_counterexample :
    extractWpPostIdFromUrl "https://site/?p=0" = some 0
    ∧ lookupJS [("post_0", "X")] ("post_" ++ toString 0) = some "X"
    ∧ createHyperlink { assetMap := [], entryMap := [("post_0", "X")] }
        [("href", "https://site/?p=0")] [.text "x"]
      = (.node "hyperlink" (.uri "https://site/?p=0") [.text "x" []], []) := by
  refine ⟨by decide, by decide, ?_⟩
  simp [createHyperlink, hyperlinkContent, processInlineContent, inlineLoop,
    createTextNode, jsAttr, getAttribute, extractWpPostIdFromUrl, scanPid,
    jsTruthy, lookupJS, jsTrim]
  decide

/-- C5 (amended): for every anchor, when the href carries a `?p=N`/`&p=N`
post id with `N ≠ 0` and the entry map holds a non-empty destination id for
`post_N`, the result is an entry hyperlink targeting that id; when no id is
extracted, or the extracted id is `0`, or the map value is missing/empty,
the result is an external hyperlink whose `uri` is the href unchanged.
Either way the content is the anchor's processed inline content
(`hyperlinkContent`). -/
theorem C5_link_resolution_amended (t : Transformer)
    (attrs : List (String × String)) (cs : List HNode) (n : Nat) (id : String) :
    (extractWpPostIdFromUrl (jsAttr attrs "href") = some n → ¬ n = 0 →
      lookupJS t.entryMap ("post_" ++ toString n) = some id → ¬ id = "" →
      (createHyperlink t attrs cs).1
        = .node "entry-hyperlink" (.entryLink id)
            (hyperlinkContent t (jsAttr attrs "href") cs).1)
    ∧ ((∀ m : Nat, extractWpPostIdFromUrl (jsAttr attrs "href") = some m →
          m = 0 ∨ jsTruthy (lookupJS t.entryMap ("post_" ++ toString m)) = false) →
      (createHyperlink t attrs cs).1
        = .node "hyperlink" (.uri (jsAttr attrs "href"))
            (hyperlinkContent t (jsAttr attrs "href") cs).1) := by
  constructor
  · intro h0 hn hlook hid
    simp only [createHyperlink, h0, hlook, if_neg hn]
    simp [jsTruthy, hid]
  · intro hother
    simp only [createHyperlink]
    cases hm : extractWpPostIdFromUrl (jsAttr attrs "href") with
    | none => simp [jsTruthy]
    | some m =>
      rcases hother m hm with h0 | hfalse
      · subst h0
        simp [jsTruthy]
      · by_cases hz : m = 0
        · simp [hz, jsTruthy]
        · simp only [if_neg hz]
          cases hl : lookupJS t.entryMap ("post_" ++ toString m) with
          | none => simp [jsTruthy]
          | some v =>
            rw [hl] at hfalse
            simp [jsTruthy] at hfalse
            simp [jsTruthy, hfalse]

theorem C5_link_resolution_amended_witness :
    (createHyperlink { assetMap := [], entryMap := [("post_5", "E")] }
        [("href", "?p=5")] [.text "y"]).1
      = .node "entry-hyperlink" (.entryLink "E")
          (hyperlinkContent { assetMap := [], entryMap := [("post_5", "E")] }
            "?p=5" [.text "y"]).1
    ∧ (createHyperlink emptyMapsTransformer [("href", "?p=9")] [.text "y"]).1
      = .node "hyperlink" (.uri "?p=9")
          (hyperlinkContent emptyMapsTransformer "?p=9" [.text "y"]).1 := by
  refine ⟨(C5_link_resolution_amended { assetMap := [], entryMap := [("post_5", "E")] }
      [("href", "?p=5")] [.text "y"] 5 "E").1 (by decide) (by decide) (by decide) (by decide),
    (C5_link_resolution_amended emptyMapsTransformer
      [("href", "?p=9")] [.text "y"] 9 "E").2 ?_⟩
  intro m hm
  have h9 : extractWpPostIdFromUrl (jsAttr [("href", "?p=9")] "href") = some 9 := by decide
  rw [h9] at hm
  injection hm with hm9
  right
  rw [← hm9]
  decide

/-- C6 counterexample: an `<img data-id="0" src="pic.jpg">` together with an
asset map containing an entry for id `0`. The first strategy (the data
attribute) finds the id `0` and the map has an entry for it, so the claim
demands an embedded-asset node; the code treats the parsed `0` as falsy
(`if (!wpId)`, `wpId ? ... : null`), never consults the map, and emits the
italic text fallback plus a warning. -/
theorem C6_zero_data_id_counterexample :
    embeddedWpId [("data-id", "0"), ("src", "pic.jpg")] = some 0
    ∧ lookupJS [("0", "A")] (toString (0 : Int)) = some "A"
    ∧ createEmbeddedAsset { assetMap := [("0", "A")], entryMap := [] }
        [("data-id", "0"), ("src", "pic.jpg")]
      = (.node "paragraph" .empty [.text "[Image: pic.jpg]" ["italic"]],
         ["Asset not found for image: pic.jpg"]) := by
  refine ⟨by decide, by decide, ?_⟩
  rfl

/-- C6 (amended): the media id is sought by the three strategies in priority
order, but a strategy only succeeds with a truthy (nonzero, numeric) id;
when the search yields no truthy id, or the asset map holds no non-empty
value for it, the result is the italic `[Image: <alt-or-src>]` fallback
paragraph plus an `Asset not found` warning; when the search yields a
nonzero id mapped to a non-empty asset id, the result is an embedded-asset
node targeting it, with no warning. -/
theorem C6_asset_resolution_amended (t : Transformer)
    (attrs : List (String × String)) (n : Int) (cid : String) :
    (embeddedWpId attrs = some n → ¬ n = 0 →
      lookupJS t.assetMap (toString n) = some cid → ¬ cid = "" →
      createEmbeddedAsset t attrs
        = (.node "embedded-asset-block" (.assetLink cid) [], []))
    ∧ ((∀ m : Int, embeddedWpId attrs = some m →
          m = 0 ∨ jsTruthy (lookupJS t.assetMap (toString m)) = false) →
      createEmbeddedAsset t attrs
        = (.node "paragraph" .empty
            [.text ("[Image: " ++ (if jsAttr attrs "alt" = "" then jsAttr attrs "src"
                else jsAttr attrs "alt") ++ "]") ["italic"]],
          ["Asset not found for image: " ++ jsSubstring (jsAttr attrs "src") 100])) := by
  constructor
  · intro h0 hn hlook hcid
    simp only [createEmbeddedAsset, h0, hlook, if_neg hn]
    simp [jsTruthy, hcid]
  · intro hother
    simp only [createEmbeddedAsset]
    cases hm : embeddedWpId attrs with
    | none => simp [jsTruthy]
    | some m =>
      rcases hother m hm with h0 | hfalse
      · subst h0
        simp [jsTruthy]
      · by_cases hz : m = 0
        · simp [hz, jsTruthy]
        · simp only [if_neg hz]
          cases hl : lookupJS t.assetMap (toString m) with
          | none => simp [jsTruthy]
          | some v =>
            rw [hl] at hfalse
            simp [jsTruthy] at hfalse
            simp [jsTruthy, hfalse]

theorem C6_asset_resolution_amended_witness :
    createEmbeddedAsset { assetMap := [("7", "A7")], entryMap := [] }
        [("class", "wp-image-7"), ("src", "pic.jpg")]
      = (.node "embedded-asset-block" (.assetLink "A7") [], [])
    ∧ createEmbeddedAsset emptyMapsTransformer [("src", "pic.jpg"), ("alt", "a cat")]
      = (.node "paragraph" .empty [.text "[Image: a cat]" ["italic"]],
         ["Asset not found for image: pic.jpg"]) := by
  refine ⟨(C6_asset_resolution_amended { assetMap := [("7", "A7")], entryMap := [] }
      [("class", "wp-image-7"), ("src", "pic.jpg")] 7 "A7").1
        (by decide) (by decide) (by decide) (by decide), ?_⟩
  have h := (C6_asset_resolution_amended emptyMapsTransformer
      [("src", "pic.jpg"), ("alt", "a cat")] 0 "").2 ?_
  · exact h
  · intro m hm
    have hnone : embeddedWpId [("src", "pic.jpg"), ("alt", "a cat")] = none := by decide
    rw [hnone] at hm
    cases hm

/-- C7 counterexample: nesting the same formatting twice,
`<strong><b>x</b></strong>`, yields one text run whose marks list contains
`bold` twice — `wrapWithMark` appends `{type}` objects without
deduplication, so marks do not behave as a set. -/
theorem C7_duplicate_mark_counterexample :
    processInlineContent emptyMapsTransformer false
      [.elem "strong" [] [.elem "b" [] [.text "x"]]]
      = ([.text "x" ["bold", "bold"]], []) := by
  simp [processInlineContent, inlineLoop, wrapWithMark, getMarkType, createTextNode,
        lowerStr, lowerChar, isListTag, emptyMapsTransformer]

/-- C7 (amended): nesting distinct formatting elements accumulates each
enclosing element's mark onto the single resulting text run —
`<strong><em>x</em></strong>` yields exactly one text run carrying both
`italic` and `bold` — but the marks form a list in nesting order, not a
deduplicated set. -/
theorem C7_mark_union_amended :
    processInlineContent emptyMapsTransformer false
      [.elem "strong" [] [.elem "em" [] [.text "x"]]]
      = ([.text "x" ["italic", "bold"]], []) := by
  simp [processInlineContent, inlineLoop, wrapWithMark, getMarkType, createTextNode,
        lowerStr, lowerChar, isListTag, emptyMapsTransformer]

/-- C8 counterexample: for the childless anchor
`<a href="https://example.com/page"></a>` the claim demands a fallback text
run carrying the URL; the code's fallback branch is unreachable because
`processInlineContent` already substitutes a single empty-string text run,
so the emitted hyperlink's content is exactly one empty-string text run. -/
theorem C8_empty_anchor_counterexample :
    createHyperlink emptyMapsTransformer [("href", "https://example.com/page")] []
      = (.node "hyperlink" (.uri "https://example.com/page") [.text "" []], []) := by
  simp [createHyperlink, hyperlinkContent, processInlineContent, inlineLoop,
    createTextNode, jsAttr, getAttribute, extractWpPostIdFromUrl, scanPid,
    jsTruthy, lookupJS, emptyMapsTransformer]

/-- C8 (amended): inline processing never yields an empty array (an anchor
with empty inline content receives a single empty-string text run from
`processInlineContent`, making `createHyperlink`'s URL fallback
unreachable), so every emitted link node has non-empty content — though
that content can be a single empty-string text run. -/
theorem C8_link_content_never_empty_amended :
    (∀ (t : Transformer) (excl : Bool) (cs : List HNode),
      0 < (processInlineContent t excl cs).1.length)
    ∧ (∀ (t : Transformer) (attrs : List (String × String)) (cs : List HNode),
      0 < ((createHyperlink t attrs cs).1).contentOf.length)
    ∧ processInlineContent emptyMapsTransformer false ([] : List HNode)
      = ([.text "" []], []) := by
  have h1 : ∀ (t : Transformer) (excl : Bool) (cs : List HNode),
      0 < (processInlineContent t excl cs).1.length := by
    intro t excl cs
    simp only [processInlineContent]
    by_cases h : (inlineLoop t excl cs).1.length = 0
    · simp [h]
    · simp only [if_neg h]
      omega
  have h2 : ∀ (t : Transformer) (href : String) (cs : List HNode),
      0 < (hyperlinkContent t href cs).1.length := by
    intro t href cs
    simp only [hyperlinkContent]
    by_cases h : (processInlineContent t false cs).1.length = 0
    · simp [h]
    · simp only [if_neg h]
      omega
  refine ⟨h1, ?_, ?_⟩
  · intro t attrs cs
    simp only [createHyperlink]
    split
    · simpa [RNode.contentOf] using h2 t (jsAttr attrs "href") cs
    · simpa [RNode.contentOf] using h2 t (jsAttr attrs "href") cs
  · simp [processInlineContent, inlineLoop, createTextNode, emptyMapsTransformer]

/-- C10: `wrapWithMark` adds its mark only to text runs and passes every
other inline item through unchanged — any non-text item of its output is an
item of the plain inline processing of the same children — and concretely,
for `<strong><a href="u">x</a></strong>` the text run inside the resulting
hyperlink carries no mark from the enclosing `<strong>`. -/
theorem C10_wrap_with_mark_skips_non_text
    (t : Transformer) (mk : String) (cs : List HNode) (item : RNode)
    (hmem : item ∈ (wrapWithMark t (some mk) cs).1)
    (hnot : ∀ (v : String) (ms : List String), ¬ item = .text v ms) :
    item ∈ (processInlineContent t false cs).1
    ∧ processInlineContent emptyMapsTransformer false
        [.elem "strong" [] [.elem "a" [("href", "u")] [.text "x"]]]
      = ([.node "hyperlink" (.uri "u") [.text "x" []]], []) := by
  constructor
  · simp only [wrapWithMark, List.mem_map] at hmem
    obtain ⟨x, hx, hfx⟩ := hmem
    cases x with
    | text v ms =>
      exact absurd hfx.symm (by simpa using hnot v (ms ++ [mk]))
    | node nt d c =>
      rw [← hfx]
      exact hx
  · simp [processInlineContent, inlineLoop, wrapWithMark, getMarkType, createHyperlink,
      hyperlinkContent, createTextNode, jsAttr, getAttribute, extractWpPostIdFromUrl,
      scanPid, jsTruthy, lookupJS, lowerStr, lowerChar, isListTag, emptyMapsTransformer]

theorem C10_wrap_with_mark_skips_non_text_witness :
    ((.node "hyperlink" (.uri "u") [.text "x" []] : RNode)
      ∈ (wrapWithMark emptyMapsTransformer (some "bold")
          [.elem "a" [("href", "u")] [.text "x"]]).1)
    ∧ ((.node "hyperlink" (.uri "u") [.text "x" []] : RNode)
      ∈ (processInlineContent emptyMapsTransformer false
          [.elem "a" [("href", "u")] [.text "x"]]).1) := by
  have hm : (.node "hyperlink" (.uri "u") [.text "x" []] : RNode)
      ∈ (wrapWithMark emptyMapsTransformer (some "bold")
          [.elem "a" [("href", "u")] [.text "x"]]).1 := by
    simp [wrapWithMark, processInlineContent, inlineLoop, createHyperlink,
      hyperlinkContent, createTextNode, jsAttr, getAttribute, extractWpPostIdFromUrl,
      scanPid, jsTruthy, lookupJS, lowerStr, lowerChar, isListTag, getMarkType,
      emptyMapsTransformer]
  exact ⟨hm, (C10_wrap_with_mark_skips_non_text emptyMapsTransformer "bold"
    [.elem "a" [("href", "u")] [.text "x"]] _ hm
    (fun v ms h => RNode.noConfusion h)).1⟩
